import Mathlib

/-!
Verification of the feedback-vault review application against its
specification.  The repository itself ships only the frontend: the
aggregation/insight backend the spec describes (`getAggregate`,
`getInsights`, the Rating Aggregator, the Tag Frequency Counter and the
Insight Synthesizer) is consumed through a REST interface and is not part
of the source tree.  Those components are therefore modelled here directly
from the specification text, while the frontend pieces (rating colour
functions, dashboard tag presentation, the review form, the auth/token
lifecycle) are embedded from the JavaScript source.

Conventions: JavaScript numbers are modelled as rationals (ℚ), JavaScript
strings either as `String` or, where character-level manipulation matters,
as `List Char`; fallible operations return `Option`.
-/

namespace FeedbackVault

/-- Modelled from the spec (§6): a target of aggregation is an item or a
variant. -/
inductive TargetKind where
  | item
  | variant
deriving DecidableEq

/-- Modelled from the spec (§3, Review): a review record with overall
rating, optional dimension→rating mapping (association list), optional tag
set, optional short/long text, helpful-vote count, verification flag and
creation timestamp.  Ratings are rationals, texts are lists of characters
(JavaScript UTF-16 units). -/
structure Review where
  id : Nat
  variant_id : Nat
  overall_rating : ℚ
  dimensional_ratings : List (String × ℚ)
  tags : List String
  short_review : List Char
  full_review : List Char
  helpful_count : Nat
  verified : Bool
  created_at : Nat

/-- Whitespace test used by tag normalization. -/
def isSpaceChar (c : Char) : Bool := c = ' ' || c = '\t' || c = '\n' || c = '\r'

/-- Drops leading whitespace characters. -/
def dropLeadingSpaces : List Char → List Char
  | [] => []
  | c :: cs => if isSpaceChar c then dropLeadingSpaces cs else c :: cs

/-- Trims whitespace from both ends of a character list. -/
def trimChars (cs : List Char) : List Char :=
  dropLeadingSpaces ((dropLeadingSpaces cs.reverse).reverse)

/-- Modelled from the spec (§4.2): tag normalization — trim, lowercase,
hyphen-separated words as the canonical form. -/
def normalizeTag (s : String) : String :=
  ⟨(trimChars s.data).map (fun c => if isSpaceChar c then '-' else c.toLower)⟩

/-- Keeps the first occurrence of each element, preserving first-seen
order. -/
def dedupFirst : List String → List String
  | [] => []
  | x :: xs => x :: (dedupFirst xs).filter (fun y => y ≠ x)

/-- Modelled from the spec (§4.2): the normalized tag occurrences of a
review list, reviews in input order (listReviews delivers them sorted by
creation timestamp ascending), tags in per-review order. -/
def allTags (rs : List Review) : List String :=
  rs.flatMap (fun r => r.tags.map normalizeTag)

/-- Number of occurrences of tag `t` in the occurrence list `ts`. -/
def countTag (ts : List String) (t : String) : Nat :=
  (ts.filter (fun x => x = t)).length

/-- Modelled from the spec (§4.2): the frequency table in first-seen
order — each distinct normalized tag paired with its occurrence count. -/
def tagTable (rs : List Review) : List (String × Nat) :=
  (dedupFirst (allTags rs)).map (fun t => (t, countTag (allTags rs) t))

/-- Comparison used to rank the frequency table: count descending, ties
broken by first-seen position (the `Nat` component is the index of the
entry in the first-seen table). -/
def tagRankLE (a b : Nat × (String × Nat)) : Bool :=
  decide (b.2.2 < a.2.2 ∨ (a.2.2 = b.2.2 ∧ a.1 ≤ b.1))

/-- Modelled from the spec (§4.2): the frequency table enumerated with its
first-seen index and sorted by count descending, ties by first-seen
order. -/
def rankedTagTable (rs : List Review) : List (Nat × (String × Nat)) :=
  ((tagTable rs).enum).mergeSort tagRankLE

/-- Modelled from the spec (§4.2): the Tag Frequency Counter — the full
ranked table of (tag, count) pairs, sorted descending by count, ties by
first-seen order; no truncation. -/
def tagFrequency (rs : List Review) : List (String × Nat) :=
  (rankedTagTable rs).map Prod.snd

/-- Sum of the overall ratings of a review list. -/
def sumRatings (rs : List Review) : ℚ :=
  (rs.map (fun r => r.overall_rating)).sum

/-- Modelled from the spec (§4.1): overall average — the arithmetic mean
of `overall_rating`, with null (`none`) semantics when the review set is
empty; never divides by zero. -/
def averageRating (rs : List Review) : Option ℚ :=
  match rs with
  | [] => none
  | _ => some (sumRatings rs / rs.length)

/-- The rating values supplied for dimension `d` across the reviews that
supplied it. -/
def dimValues (rs : List Review) (d : String) : List ℚ :=
  rs.filterMap (fun r => r.dimensional_ratings.lookup d)

/-- The dimension names observed in at least one review, in first-seen
order. -/
def observedDims (rs : List Review) : List String :=
  dedupFirst (rs.flatMap (fun r => r.dimensional_ratings.map Prod.fst))

/-- Modelled from the spec (§4.1): dimensional averages — a mapping from
each dimension observed in any review to the mean over only the reviews
that supplied it; dimensions never reported are absent. -/
def dimensionalAverages (rs : List Review) : List (String × ℚ) :=
  (observedDims rs).map (fun d => (d, (dimValues rs d).sum / (dimValues rs d).length))

/-- Modelled from the spec (§3): the ephemeral Aggregate Snapshot. -/
structure AggregateSnapshot where
  count : Nat
  average : Option ℚ
  dimensional_averages : List (String × ℚ)
  tag_frequency : List (String × Nat)

/-- Modelled from the spec (§6): the review-store read interface
`listReviews(targetId, targetKind)`, an ordered sequence of reviews. -/
def ReviewStore : Type := Nat → TargetKind → List Review

/-- Modelled from the spec (§4.1, §6): `getAggregate(targetId, targetKind)`
— folds the target's reviews into an Aggregate Snapshot; total, hence it
never fails for a valid id and returns a zero-valued snapshot when the
target has no reviews. -/
def getAggregate (store : ReviewStore) (targetId : Nat) (kind : TargetKind) :
    AggregateSnapshot :=
  let rs := store targetId kind
  { count := rs.length
    average := averageRating rs
    dimensional_averages := dimensionalAverages rs
    tag_frequency := tagFrequency rs }

/-- Modelled from the spec (§4.3, design note): the tag-allowlist of
"would-recommend"-equivalent tags (the UI vocabulary contains exactly
`would-recommend`). -/
def recommendTagList : List String := ["would-recommend"]

/-- Modelled from the spec (§4.3): whether a review's tag set includes a
would-recommend-equivalent tag (tags compared after normalization). -/
def isRecommend (r : Review) : Bool :=
  r.tags.any (fun t => recommendTagList.contains (normalizeTag t))

/-- Number of reviews carrying a would-recommend-equivalent tag. -/
def recommendCount (rs : List Review) : Nat :=
  (rs.filter isRecommend).length

/-- Modelled from the spec (§4.3): `recommendation_percentage` — the
fraction of reviews whose tag set includes a would-recommend-equivalent
tag, as an integer percentage rounded half-up; 0 for an empty review set.
`(200 * c + n) / (2 * n)` in natural division is the round-half-up of
`100 * c / n`. -/
def recommendationPercentage (rs : List Review) : Nat :=
  match rs with
  | [] => 0
  | _ => (200 * recommendCount rs + rs.length) / (2 * rs.length)

/-- Modelled from the spec (§4.3, §8): `sentiment_score` — a 0–100 integer
derived deterministically from the overall average by the documented
linear rescale of the 1–5 average onto 0–100 (`(avg - 1) / 4 * 100`),
rounded half-up; 0 (the defined neutral default) for an empty review
set. -/
def sentimentScore (rs : List Review) : Nat :=
  match averageRating rs with
  | none => 0
  | some avg => (⌊(avg - 1) / 4 * 100 + 1 / 2⌋).toNat

/-- Modelled from the spec (§6): the structured result of the external
text-generation collaborator `summarize`. -/
structure SummaryResult where
  summary : String
  insights : List String
  key_strengths : List String
  areas_for_improvement : List String

/-- Modelled from the spec (§6, §7): the outcome of the external
text-generation call — success, timeout, service error, or malformed
response. -/
inductive SummarizeOutcome where
  | ok (res : SummaryResult)
  | timeout
  | serviceError
  | malformed

/-- Modelled from the spec (§3): the Insight Result, extended with the
explicit "insights unavailable" marker required by §4.3. -/
structure InsightResult where
  summary : String
  sentiment_score : Nat
  recommendation_percentage : Nat
  insights : List String
  key_strengths : List String
  areas_for_improvement : List String
  popular_tags : List (String × Nat)
  insights_unavailable : Bool

/-- Modelled from the spec (§4.3, §7): the Insight Synthesizer.  The
external collaborator's outcome is passed in; on any failure (timeout,
service error, malformed response) the locally computable numeric fields
are still produced, the text fields are empty and the unavailable marker
is set.  Total — it never throws. -/
def getInsights (rs : List Review) (outcome : SummarizeOutcome) : InsightResult :=
  match outcome with
  | .ok res =>
      { summary := res.summary
        sentiment_score := sentimentScore rs
        recommendation_percentage := recommendationPercentage rs
        insights := res.insights
        key_strengths := res.key_strengths
        areas_for_improvement := res.areas_for_improvement
        popular_tags := tagFrequency rs
        insights_unavailable := false }
  | _ =>
      { summary := ""
        sentiment_score := sentimentScore rs
        recommendation_percentage := recommendationPercentage rs
        insights := []
        key_strengths := []
        areas_for_improvement := []
        popular_tags := tagFrequency rs
        insights_unavailable := true }

/-- Embedded from `src/unnamed/part_000` (the utilities module):
`getRatingColor(rating)`. -/
def Utils.getRatingColor (rating : ℚ) : String :=
  if rating ≥ 4.5 then "text-emerald-600"
  else if rating ≥ 4 then "text-green-600"
  else if rating ≥ 3 then "text-amber-600"
  else if rating ≥ 2 then "text-orange-600"
  else "text-red-600"

/-- Embedded from `src/frontend/src/components/common/StarRating.jsx`:
the local `getRatingColor` defined inside `RatingDisplay`. -/
def RatingDisplay.getRatingColor (rating : ℚ) : String :=
  if rating ≥ 4.5 then "text-emerald-600"
  else if rating ≥ 4 then "text-green-600"
  else if rating ≥ 3 then "text-amber-600"
  else "text-red-600"

/-- Word character in the sense of the JavaScript regexp `\w`. -/
def isWordChar (c : Char) : Bool := c.isAlphanum || c = '_'

/-- Uppercases every word character that follows a non-word character
(`prev` is the preceding character), as the JavaScript word-boundary
uppercasing replacement does. -/
def capitalizeWordStarts (prev : Char) : List Char → List Char
  | [] => []
  | c :: cs =>
      (if isWordChar c && !isWordChar prev then c.toUpper else c) ::
        capitalizeWordStarts c cs

/-- Embedded from `src/frontend/src/pages/dashboard/DashboardPage.jsx`:
the display transformation applied to each tag — every hyphen becomes a
space, then every word-initial character is uppercased. -/
def displayTag (s : String) : String :=
  ⟨capitalizeWordStarts ' ' (s.data.map (fun c => if c = '-' then ' ' else c))⟩

/-- Embedded from `src/frontend/src/pages/dashboard/DashboardPage.jsx`
(`tagData`): the dashboard takes the first 8 entries of the served
`tag_frequency` table and reformats the tag for display — the truncation
to top-8 happens here, at the presentation boundary. -/
def dashboardTagData (tag_frequency : List (String × Nat)) : List (String × Nat) :=
  (tag_frequency.take 8).map (fun p => (displayTag p.1, p.2))

/-- Embedded from `src/unnamed/part_007` (`AIInsights`): the popular-tags
panel takes the first 6 entries of the served `popular_tags` mapping and
replaces hyphens by spaces — again truncation at the presentation
boundary. -/
def popularTagsShown (popular_tags : List (String × Nat)) : List (String × Nat) :=
  (popular_tags.take 6).map
    (fun p => (⟨p.1.data.map (fun c => if c = '-' then ' ' else c)⟩, p.2))

/-- Embedded from `src/frontend/src/pages/ItemDetailPage.jsx`: the review
form state (`reviewRating`, `reviewDimensions`, `reviewTags`,
`shortReview`, `fullReview`). -/
structure ReviewFormState where
  reviewRating : Nat
  reviewDimensions : List (String × ℚ)
  reviewTags : List String
  shortReview : List Char
  fullReview : List Char

/-- Embedded from `src/frontend/src/pages/ItemDetailPage.jsx`: the initial
form state (rating 0, everything empty). -/
def initialFormState : ReviewFormState :=
  { reviewRating := 0
    reviewDimensions := []
    reviewTags := []
    shortReview := []
    fullReview := [] }

/-- Embedded from `src/frontend/src/pages/ItemDetailPage.jsx`: the events
that mutate the review form state.  The short-text field is an `Input`
with `maxLength` 160 and the long-text field a `Textarea` with `maxLength`
500, so the value delivered by their change events is capped at that many
UTF-16 units — modelled by `List.take`.  `reset` is the form reset
performed after a successful submission. -/
inductive FormEvent where
  | setRating (n : Nat)
  | setDimensions (ds : List (String × ℚ))
  | setTags (ts : List String)
  | typeShort (s : List Char)
  | typeFull (s : List Char)
  | reset

/-- Embedded from `src/frontend/src/pages/ItemDetailPage.jsx`: one form
state transition. -/
def applyFormEvent (st : ReviewFormState) : FormEvent → ReviewFormState
  | .setRating n => { st with reviewRating := n }
  | .setDimensions ds => { st with reviewDimensions := ds }
  | .setTags ts => { st with reviewTags := ts }
  | .typeShort s => { st with shortReview := s.take 160 }
  | .typeFull s => { st with fullReview := s.take 500 }
  | .reset => initialFormState

/-- The form state reached from the initial state by a sequence of
events. -/
def runForm (es : List FormEvent) : ReviewFormState :=
  es.foldl applyFormEvent initialFormState

/-- Embedded from `src/frontend/src/pages/ItemDetailPage.jsx`
(`handleSubmitReview`): the payload posted to `reviewAPI.create`. -/
structure ReviewPayload where
  variant_id : Nat
  overall_rating : Nat
  dimensional_ratings : List (String × ℚ)
  tags : List String
  short_review : List Char
  full_review : List Char

/-- Embedded from `src/frontend/src/pages/ItemDetailPage.jsx`
(`handleSubmitReview`): submission is rejected (`none`) when no variant is
selected or the rating is 0; otherwise the current form state is posted as
the review payload. -/
def submitReview (selectedVariant : Option Nat) (st : ReviewFormState) :
    Option ReviewPayload :=
  match selectedVariant with
  | none => none
  | some v =>
      if st.reviewRating = 0 then none
      else some
        { variant_id := v
          overall_rating := st.reviewRating
          dimensional_ratings := st.reviewDimensions
          tags := st.reviewTags
          short_review := st.shortReview
          full_review := st.fullReview }

/-- Embedded from `src/unnamed/part_001` and
`src/frontend/src/lib/auth.js`: the events that touch the stored token —
`login`/`register` store a fresh token, `logout` removes it, a
401-equivalent response makes the response interceptor remove it, and any
other response leaves storage unchanged. -/
inductive AuthEvent where
  | login (tok : String)
  | register (tok : String)
  | logout
  | resp401
  | respOk

/-- Embedded from `src/unnamed/part_001` and
`src/frontend/src/lib/auth.js`: one transition of the stored token. -/
def applyAuthEvent (storage : Option String) : AuthEvent → Option String
  | .login tok => some tok
  | .register tok => some tok
  | .logout => none
  | .resp401 => none
  | .respOk => storage

/-- The stored token after a sequence of auth events, starting from empty
storage. -/
def runAuth (es : List AuthEvent) : Option String :=
  es.foldl applyAuthEvent none

/-- Embedded from `src/unnamed/part_001` (the request interceptor): an
outgoing request carries `Bearer <token>` exactly when a token is in
storage. -/
def requestAuthHeader (storage : Option String) : Option String :=
  match storage with
  | some tok => some ("Bearer " ++ tok)
  | none => none

/-- Whether an auth event acquires a token (login or register). -/
def acquiresToken : AuthEvent → Bool
  | .login _ => true
  | .register _ => true
  | _ => false

/-- Builds a concrete review for witnesses and counterexamples. -/
def mkReview (i : Nat) (rating : ℚ) (dims : List (String × ℚ))
    (tags : List String) (ts : Nat) : Review :=
  { id := i
    variant_id := 1
    overall_rating := rating
    dimensional_ratings := dims
    tags := tags
    short_review := []
    full_review := []
    helpful_count := 0
    verified := false
    created_at := ts }

/-- The average of a non-empty review list is the arithmetic mean of its
overall ratings. -/
theorem averageRating_eq_mean (rs : List Review) (h : rs ≠ []) :
    averageRating rs =
      some ((rs.map (fun r => r.overall_rating)).sum / (rs.length : ℚ)) := by
  cases rs with
  | nil => exact absurd rfl h
  | cons a l => rfl

/-- The average is invariant under permutation of the review list. -/
theorem averageRating_perm (rs rs' : List Review) (h : rs.Perm rs') :
    averageRating rs = averageRating rs' := by
  rcases eq_or_ne rs [] with hnil | hne
  · subst hnil
    rw [← h.nil_eq]
  · have hne' : rs' ≠ [] := by
      intro h0
      subst h0
      exact hne h.eq_nil
    rw [averageRating_eq_mean rs hne, averageRating_eq_mean rs' hne',
      (h.map (fun r => r.overall_rating)).sum_eq, h.length_eq]

/-- C1: for every non-empty review set of a target, the average returned
by `getAggregate` equals the arithmetic mean of the `overall_rating`
values of exactly the reviews belonging to that target, and the value is
unchanged under any permutation (reordering) of that review set. -/
theorem c1_getAggregate_average_is_mean_perm_invariant
    (store store' : ReviewStore) (tid : Nat) (k : TargetKind)
    (hne : store tid k ≠ [])
    (hperm : (store' tid k).Perm (store tid k)) :
    (getAggregate store tid k).average =
        some (((store tid k).map (fun r => r.overall_rating)).sum /
          ((store tid k).length : ℚ))
      ∧ (getAggregate store' tid k).average = (getAggregate store tid k).average := by
  refine ⟨?_, ?_⟩
  · show averageRating (store tid k) = _
    exact averageRating_eq_mean _ hne
  · show averageRating (store' tid k) = averageRating (store tid k)
    exact averageRating_perm _ _ hperm

/-- A concrete review used by witnesses: rating 5, tags
`[fresh, would-recommend]`. -/
def wr1 : Review := mkReview 1 5 [("taste", 5)] ["fresh", "would-recommend"] 10

/-- A concrete review used by witnesses: rating 4, tag `[fresh]`. -/
def wr2 : Review := mkReview 2 4 [("taste", 3), ("portion", 4)] ["fresh"] 20

/-- A concrete review used by witnesses: rating 3, no tags. -/
def wr3 : Review := mkReview 3 3 [] [] 30

/-- Witness for C1 at the two-review store `[wr1, wr2]` and its
transposition. -/
theorem c1_getAggregate_average_witness :
    (getAggregate (fun _ _ => [wr1, wr2]) 7 TargetKind.variant).average =
        some ((([wr1, wr2].map (fun r => r.overall_rating)).sum) /
          (([wr1, wr2] : List Review).length : ℚ))
      ∧ (getAggregate (fun _ _ => [wr2, wr1]) 7 TargetKind.variant).average
          = (getAggregate (fun _ _ => [wr1, wr2]) 7 TargetKind.variant).average :=
  c1_getAggregate_average_is_mean_perm_invariant
    (fun _ _ => [wr1, wr2]) (fun _ _ => [wr2, wr1]) 7 TargetKind.variant
    (by simp) (List.Perm.swap wr1 wr2 [])

/-- C2: for the empty review set, `getAggregate` returns count 0 and a
null (`none`) average — the division by the count is never performed, so
no NaN/undefined value can arise — and, the function being total, it never
fails for a valid target id and yields the zero-valued snapshot whenever
the target has no reviews. -/
theorem c2_getAggregate_empty_zero_snapshot (store : ReviewStore)
    (tid : Nat) (k : TargetKind) (h : store tid k = []) :
    getAggregate store tid k =
      { count := 0
        average := none
        dimensional_averages := []
        tag_frequency := [] } := by
  simp [getAggregate, h, averageRating, dimensionalAverages, observedDims,
    dedupFirst, tagFrequency, rankedTagTable, tagTable, allTags]

/-- Witness for C2 at a store with no reviews anywhere. -/
theorem c2_getAggregate_empty_zero_snapshot_witness :
    getAggregate (fun _ _ => []) 1 TargetKind.item =
      { count := 0
        average := none
        dimensional_averages := []
        tag_frequency := [] } :=
  c2_getAggregate_empty_zero_snapshot (fun _ _ => []) 1 TargetKind.item rfl

/-- C10 fails: at rating 2 the utilities-module `getRatingColor` returns
`text-orange-600` while the local `getRatingColor` of `RatingDisplay`
returns `text-red-600`. -/
theorem c10_rating_color_functions_differ_at_two :
    Utils.getRatingColor 2 ≠ RatingDisplay.getRatingColor 2 := by
  have h1 : Utils.getRatingColor 2 = "text-orange-600" := by
    unfold Utils.getRatingColor
    norm_num
  have h2 : RatingDisplay.getRatingColor 2 = "text-red-600" := by
    unfold RatingDisplay.getRatingColor
    norm_num
  rw [h1, h2]
  decide

/-- C10 amended: the two rating-colour functions agree at every rating
outside the half-open interval [2, 3) — i.e. whenever the rating is below
2 or at least 3; on [2, 3) the utilities version returns
`text-orange-600` while the `RatingDisplay` version returns
`text-red-600`. -/
theorem c10_rating_color_functions_agree_outside_two_three (r : ℚ)
    (h : r < 2 ∨ 3 ≤ r) :
    Utils.getRatingColor r = RatingDisplay.getRatingColor r := by
  unfold Utils.getRatingColor RatingDisplay.getRatingColor
  split_ifs with h1 h2 h3 h4
  · rfl
  · rfl
  · rfl
  · exfalso
    rcases h with h | h
    · exact absurd h4 (by linarith)
    · exact h3 (by linarith)
  · rfl

/-- Witness for the amended C10 at rating 5. -/
theorem c10_rating_color_functions_agree_witness :
    Utils.getRatingColor 5 = RatingDisplay.getRatingColor 5 :=
  c10_rating_color_functions_agree_outside_two_three 5 (Or.inr (by norm_num))

/-- `dedupFirst` preserves membership. -/
theorem mem_dedupFirst (a : String) : ∀ l : List String, a ∈ dedupFirst l ↔ a ∈ l
  | [] => by simp [dedupFirst]
  | x :: xs => by
    simp only [dedupFirst, List.mem_cons, List.mem_filter,
      mem_dedupFirst a xs, decide_eq_true_eq]
    by_cases hax : a = x
    · simp [hax]
    · simp [hax]

/-- A dimension has an entry in `dimensionalAverages` exactly when it is
an observed dimension. -/
theorem mem_dimensionalAverages_iff (rs : List Review) (d : String) :
    (∃ v, (d, v) ∈ dimensionalAverages rs) ↔ d ∈ observedDims rs := by
  unfold dimensionalAverages
  constructor
  · rintro ⟨v, hv⟩
    obtain ⟨a, ha, heq⟩ := List.mem_map.mp hv
    obtain ⟨h1, h2⟩ := Prod.mk.injEq .. |>.mp heq
    exact h1 ▸ ha
  · intro hd
    exact ⟨_, List.mem_map.mpr ⟨d, hd, rfl⟩⟩

/-- A dimension is observed exactly when at least one review supplied
it. -/
theorem mem_observedDims_iff (rs : List Review) (d : String) :
    d ∈ observedDims rs ↔ ∃ r ∈ rs, ∃ v, (d, v) ∈ r.dimensional_ratings := by
  unfold observedDims
  rw [mem_dedupFirst]
  simp only [List.mem_flatMap, List.mem_map, Prod.exists]
  constructor
  · rintro ⟨r, hr, ⟨a, b, hab, rfl⟩⟩
    exact ⟨r, hr, b, hab⟩
  · rintro ⟨r, hr, v, hv⟩
    exact ⟨r, hr, d, v, hv, rfl⟩

/-- Two concrete reviews realizing the spec's dimensional-averages
scenario. -/
def dimRev1 : Review := mkReview 1 5 [("taste", 5)] [] 0

/-- Second review of the dimensional-averages scenario. -/
def dimRev2 : Review := mkReview 2 4 [("taste", 3), ("portion", 4)] [] 1

/-- C4: the `dimensional_averages` mapping has an entry for a dimension
iff at least one review supplied that dimension, the value of each entry
is the arithmetic mean over only the reviews that supplied the dimension
(`dimValues` collects exactly those values), and the spec scenario
`[taste 5] , [taste 3, portion 4]` yields `taste 4, portion 4` — the
portion denominator is 1, not 2. -/
theorem c4_dimensional_averages_present_iff_supplied
    (rs : List Review) (d : String) :
    ((∃ v, (d, v) ∈ dimensionalAverages rs) ↔
        ∃ r ∈ rs, ∃ v, (d, v) ∈ r.dimensional_ratings)
    ∧ (∀ v, (d, v) ∈ dimensionalAverages rs →
        v = (dimValues rs d).sum / ((dimValues rs d).length : ℚ))
    ∧ dimensionalAverages [dimRev1, dimRev2] =
        [("taste", 4), ("portion", 4)] := by
  refine ⟨(mem_dimensionalAverages_iff rs d).trans (mem_observedDims_iff rs d),
    ?_, ?_⟩
  · intro v hv
    simp only [dimensionalAverages, List.mem_map, Prod.mk.injEq] at hv
    obtain ⟨a, _, rfl, rfl⟩ := hv
    rfl
  · have ho : observedDims [dimRev1, dimRev2] = ["taste", "portion"] := by decide
    have ht : dimValues [dimRev1, dimRev2] "taste" = [5, 3] := by decide
    have hp : dimValues [dimRev1, dimRev2] "portion" = [4] := by decide
    unfold dimensionalAverages
    rw [ho]
    simp only [List.map_cons, List.map_nil, ht, hp]
    norm_num

/-- Witness for C4: `portion` is present (supplied by the second review
only) and the scenario evaluates to `taste 4, portion 4`. -/
theorem c4_dimensional_averages_witness :
    (∃ v, ("portion", v) ∈ dimensionalAverages [dimRev1, dimRev2])
    ∧ dimensionalAverages [dimRev1, dimRev2] = [("taste", 4), ("portion", 4)] :=
  ⟨(c4_dimensional_averages_present_iff_supplied [dimRev1, dimRev2] "portion").1.mpr
      ⟨dimRev2, by simp, 4, by simp [dimRev2, mkReview]⟩,
   (c4_dimensional_averages_present_iff_supplied [dimRev1, dimRev2] "portion").2.2⟩

/-- The recommendation percentage of a non-empty review list, written as
a single natural division. -/
theorem recommendationPercentage_eq (rs : List Review) (h : rs ≠ []) :
    recommendationPercentage rs =
      (200 * recommendCount rs + rs.length) / (2 * rs.length) := by
  cases rs with
  | nil => exact absurd rfl h
  | cons a l => rfl

/-- The recommendation percentage never exceeds 100. -/
theorem recommendationPercentage_le_100 (rs : List Review) :
    recommendationPercentage rs ≤ 100 := by
  cases rs with
  | nil => simp [recommendationPercentage]
  | cons a l =>
    have hc : recommendCount (a :: l) ≤ (a :: l).length :=
      List.length_filter_le _ _
    have hn : (a :: l).length = l.length + 1 := List.length_cons a l
    rw [recommendationPercentage_eq _ (by simp)]
    have hlt : (200 * recommendCount (a :: l) + (a :: l).length) /
        (2 * (a :: l).length) < 101 := by
      rw [Nat.div_lt_iff_lt_mul (by omega)]
      omega
    omega

/-- C5: `recommendation_percentage` is an integer percentage that never
exceeds 100; it is 0 (defined) for the empty review set; for a non-empty
set it is the round-half-up of the fraction of reviews carrying a
would-recommend-equivalent tag, expressed over 100; and for 3 reviews with
exactly one recommender it is 33. -/
theorem c5_recommendation_percentage_bounds_and_rounding (rs : List Review) :
    recommendationPercentage rs ≤ 100
    ∧ (rs = [] → recommendationPercentage rs = 0)
    ∧ (rs ≠ [] → recommendationPercentage rs =
        ⌊100 * (recommendCount rs : ℚ) / (rs.length : ℚ) + 1 / 2⌋₊)
    ∧ (rs.length = 3 → recommendCount rs = 1 → recommendationPercentage rs = 33) := by
  refine ⟨recommendationPercentage_le_100 rs, ?_, ?_, ?_⟩
  · intro h
    subst h
    rfl
  · intro hne
    have hn : 0 < rs.length := List.length_pos.mpr hne
    have hq : 100 * (recommendCount rs : ℚ) / (rs.length : ℚ) + 1 / 2
        = ((200 * recommendCount rs + rs.length : ℕ) : ℚ) /
          ((2 * rs.length : ℕ) : ℚ) := by
      have h0 : (rs.length : ℚ) ≠ 0 := by
        exact_mod_cast hn.ne'
      push_cast
      field_simp
      ring
    rw [recommendationPercentage_eq rs hne, hq, Nat.floor_div_eq_div]
  · intro h3 hc
    have hne : rs ≠ [] := by
      intro h0
      rw [h0] at h3
      simp at h3
    rw [recommendationPercentage_eq rs hne, h3, hc]

/-- Witness for C5 at the spec scenario: three reviews, exactly one of
which carries the `would-recommend` tag, give 33. -/
theorem c5_recommendation_percentage_witness :
    recommendationPercentage [wr1, wr2, wr3] ≤ 100
    ∧ recommendationPercentage [wr1, wr2, wr3] = 33 :=
  ⟨(c5_recommendation_percentage_bounds_and_rounding [wr1, wr2, wr3]).1,
   (c5_recommendation_percentage_bounds_and_rounding [wr1, wr2, wr3]).2.2.2
     (by decide) (by decide)⟩

/-- `dedupFirst` produces a duplicate-free list. -/
theorem dedupFirst_nodup : ∀ l : List String, (dedupFirst l).Nodup
  | [] => by simp [dedupFirst]
  | x :: xs => by
    unfold dedupFirst
    refine List.nodup_cons.mpr ⟨?_, (dedupFirst_nodup xs).filter _⟩
    intro hx
    have := (List.mem_filter.mp hx).2
    simp at this

/-- Pointwise sums distribute over a mapped list sum. -/
theorem sum_map_add_nat (f g : String → Nat) :
    ∀ l : List String,
      (l.map (fun t => f t + g t)).sum = (l.map f).sum + (l.map g).sum
  | [] => rfl
  | x :: xs => by
    simp only [List.map_cons, List.sum_cons, sum_map_add_nat f g xs]
    omega

/-- An indicator sum over a list not containing `y` is 0. -/
theorem sum_indicator_not_mem (y : String) :
    ∀ l : List String, y ∉ l →
      (l.map (fun t => if t = y then 1 else 0)).sum = 0
  | [], _ => rfl
  | x :: xs, h => by
    simp only [List.map_cons, List.sum_cons]
    have hxy : ¬ (x = y) := fun h1 => h (List.mem_cons.mpr (Or.inl h1.symm))
    rw [if_neg hxy,
      sum_indicator_not_mem y xs (fun hy => h (List.mem_cons_of_mem x hy))]

/-- An indicator sum over a duplicate-free list containing `y` is 1. -/
theorem sum_indicator_mem (y : String) :
    ∀ l : List String, l.Nodup → y ∈ l →
      (l.map (fun t => if t = y then 1 else 0)).sum = 1
  | [], _, hmem => absurd hmem (List.not_mem_nil y)
  | x :: xs, hnd, hmem => by
    simp only [List.map_cons, List.sum_cons]
    rcases List.mem_cons.mp hmem with h | h
    · subst h
      rw [if_pos rfl, sum_indicator_not_mem _ xs (List.nodup_cons.mp hnd).1]
    · have hxy : ¬ (x = y) := by
        intro h1
        exact (List.nodup_cons.mp hnd).1 (by rw [h1]; exact h)
      rw [if_neg hxy, sum_indicator_mem y xs (List.nodup_cons.mp hnd).2 h]

/-- Occurrence count over a cons, split into an indicator plus the tail
count. -/
theorem countTag_cons (y t : String) (ys : List String) :
    countTag (y :: ys) t = (if t = y then 1 else 0) + countTag ys t := by
  unfold countTag
  rw [List.filter_cons]
  by_cases h : y = t
  · simp [h]
    omega
  · have h2 : ¬ (t = y) := fun h3 => h h3.symm
    simp [h, h2]

/-- Summing `countTag ts` over a duplicate-free list covering the
elements of `ts` counts every occurrence of every tag exactly once. -/
theorem sum_countTag_covering (l : List String) (hl : l.Nodup) :
    ∀ ts : List String, (∀ t ∈ ts, t ∈ l) →
      (l.map (fun t => countTag ts t)).sum = ts.length
  | [], _ => by
    have h0 : (l.map (fun t => countTag [] t)) = l.map (fun _ => 0) := by
      simp [countTag]
    simp [h0]
  | y :: ys, hmem => by
    have hcons : (l.map (fun t => countTag (y :: ys) t))
        = l.map (fun t => (if t = y then 1 else 0) + countTag ys t) := by
      simp only [countTag_cons]
    rw [hcons, sum_map_add_nat,
      sum_indicator_mem y l hl (hmem y (List.mem_cons_self y ys)),
      sum_countTag_covering l hl ys
        (fun t ht => hmem t (List.mem_cons_of_mem y ht))]
    simp [Nat.add_comm]

/-- The counts in the frequency table sum to the number of tag
occurrences. -/
theorem sum_tagTable_counts (rs : List Review) :
    ((tagTable rs).map Prod.snd).sum = (allTags rs).length := by
  unfold tagTable
  rw [List.map_map]
  exact sum_countTag_covering (dedupFirst (allTags rs)) (dedupFirst_nodup _)
    (allTags rs) (fun t ht => (mem_dedupFirst t _).mpr ht)

/-- The number of tag occurrences equals the total number of
(review, tag) pairs. -/
theorem length_allTags : ∀ rs : List Review,
    (allTags rs).length = (rs.map (fun r => r.tags.length)).sum
  | [] => rfl
  | r :: rest => by
    have ih := length_allTags rest
    simp only [allTags, List.flatMap_cons, List.length_append,
      List.length_map, List.map_cons, List.sum_cons] at ih ⊢
    omega

/-- The ranked output is a permutation of the first-seen frequency
table. -/
theorem tagFrequency_perm_tagTable (rs : List Review) :
    (tagFrequency rs).Perm (tagTable rs) := by
  unfold tagFrequency rankedTagTable
  have h1 := (List.mergeSort_perm ((tagTable rs).enum) tagRankLE).map Prod.snd
  rwa [List.enum_map_snd] at h1

/-- The ranking comparison is transitive. -/
theorem tagRankLE_trans (a b c : Nat × (String × Nat)) :
    tagRankLE a b → tagRankLE b c → tagRankLE a c := by
  simp only [tagRankLE, decide_eq_true_eq]
  omega

/-- The ranking comparison is total. -/
theorem tagRankLE_total (a b : Nat × (String × Nat)) :
    (tagRankLE a b || tagRankLE b a) = true := by
  simp only [tagRankLE, Bool.or_eq_true, decide_eq_true_eq]
  omega

/-- The ranked table is sorted: counts descend, and equal counts appear
in first-seen (index) order. -/
theorem rankedTagTable_sorted (rs : List Review) :
    (rankedTagTable rs).Pairwise (fun a b =>
      b.2.2 < a.2.2 ∨ (a.2.2 = b.2.2 ∧ a.1 ≤ b.1)) := by
  have h := List.sorted_mergeSort tagRankLE_trans tagRankLE_total
    ((tagTable rs).enum)
  refine h.imp ?_
  intro a b hab
  simpa [tagRankLE, decide_eq_true_eq] using hab

/-- C6: for reviews in creation-timestamp order, the Tag Frequency
Counter's output is the projection of a table of (tag, count) pairs
sorted descending by count, ties broken by first-seen order (the `Nat`
index of `rankedTagTable` is the first-occurrence position), and the
counts sum to the total number of (review, tag) pairs in the review
set. -/
theorem c6_tag_frequency_ranking_and_conservation (rs : List Review)
    (_hsorted : rs.Pairwise (fun a b => a.created_at ≤ b.created_at)) :
    tagFrequency rs = (rankedTagTable rs).map Prod.snd
    ∧ (rankedTagTable rs).Pairwise (fun a b =>
        b.2.2 < a.2.2 ∨ (a.2.2 = b.2.2 ∧ a.1 ≤ b.1))
    ∧ ((tagFrequency rs).map Prod.snd).sum
        = (rs.map (fun r => r.tags.length)).sum := by
  refine ⟨rfl, rankedTagTable_sorted rs, ?_⟩
  have h1 := (tagFrequency_perm_tagTable rs).map Prod.snd
  rw [h1.sum_eq, sum_tagTable_counts, length_allTags]

/-- Witness for C6 at three reviews in ascending creation order. -/
theorem c6_tag_frequency_witness :
    tagFrequency [wr1, wr2, wr3] = (rankedTagTable [wr1, wr2, wr3]).map Prod.snd
    ∧ (rankedTagTable [wr1, wr2, wr3]).Pairwise (fun a b =>
        b.2.2 < a.2.2 ∨ (a.2.2 = b.2.2 ∧ a.1 ≤ b.1))
    ∧ ((tagFrequency [wr1, wr2, wr3]).map Prod.snd).sum
        = ([wr1, wr2, wr3].map (fun r => r.tags.length)).sum :=
  c6_tag_frequency_ranking_and_conservation [wr1, wr2, wr3] (by decide)

/-- C7: the Tag Frequency Counter returns the full ranked table — one
entry per distinct normalized tag, every observed tag present,
regardless of how many there are — while truncation happens only at the
presentation boundary: the dashboard keeps at most the first 8 entries
of whatever table it is served, and the insights panel at most the first
6. -/
theorem c7_counter_full_truncation_at_presentation (rs : List Review)
    (tf : List (String × Nat)) :
    (∀ t ∈ allTags rs, ∃ c, (t, c) ∈ tagFrequency rs)
    ∧ (tagFrequency rs).length = (dedupFirst (allTags rs)).length
    ∧ (dashboardTagData tf).length = min 8 tf.length
    ∧ (∀ p ∈ dashboardTagData tf, ∃ q ∈ tf.take 8, p = (displayTag q.1, q.2))
    ∧ (popularTagsShown tf).length = min 6 tf.length := by
  refine ⟨?_, ?_, ?_, ?_, ?_⟩
  · intro t ht
    refine ⟨countTag (allTags rs) t, ?_⟩
    rw [(tagFrequency_perm_tagTable rs).mem_iff]
    exact List.mem_map.mpr ⟨t, (mem_dedupFirst t _).mpr ht, rfl⟩
  · rw [(tagFrequency_perm_tagTable rs).length_eq]
    simp [tagTable]
  · simp [dashboardTagData]
  · intro p hp
    obtain ⟨q, hq, rfl⟩ := List.mem_map.mp hp
    exact ⟨q, hq, rfl⟩
  · simp [popularTagsShown]

/-- Witness for C7: the observed tag `fresh` is present in the counter
output for three concrete reviews, and an 1-entry table served to the
dashboard keeps its single entry. -/
theorem c7_counter_full_truncation_witness :
    (∃ c, ("fresh", c) ∈ tagFrequency [wr1, wr2, wr3])
    ∧ (dashboardTagData [("fresh", 2)]).length = min 8 1 :=
  ⟨(c7_counter_full_truncation_at_presentation [wr1, wr2, wr3]
      [("fresh", 2)]).1 "fresh" (by decide),
   (c7_counter_full_truncation_at_presentation [wr1, wr2, wr3]
      [("fresh", 2)]).2.2.1⟩

/-- When every overall rating is at most 5, the sentiment score is at
most 100. -/
theorem sentimentScore_le_100 (rs : List Review)
    (hvalid : ∀ r ∈ rs, r.overall_rating ≤ 5) :
    sentimentScore rs ≤ 100 := by
  cases rs with
  | nil => exact Nat.le_of_lt (by norm_num [sentimentScore, averageRating])
  | cons a l =>
    have hlen : (0 : ℚ) < (((a :: l).length : Nat) : ℚ) := by
      exact_mod_cast Nat.succ_pos l.length
    have hsum : sumRatings (a :: l) ≤ 5 * (((a :: l).length : Nat) : ℚ) := by
      have h1 := List.sum_le_card_nsmul ((a :: l).map (fun r => r.overall_rating)) 5
        (by
          intro x hx
          obtain ⟨r, hr, rfl⟩ := List.mem_map.mp hx
          exact hvalid r hr)
      rw [List.length_map] at h1
      calc sumRatings (a :: l)
          = ((a :: l).map (fun r => r.overall_rating)).sum := rfl
        _ ≤ ((a :: l).length : Nat) • (5 : ℚ) := h1
        _ = 5 * (((a :: l).length : Nat) : ℚ) := by
            rw [nsmul_eq_mul]
            ring
    have havg : sumRatings (a :: l) / (((a :: l).length : Nat) : ℚ) ≤ 5 := by
      rw [div_le_iff₀ hlen]
      linarith
    show (⌊(sumRatings (a :: l) / (((a :: l).length : Nat) : ℚ) - 1) / 4 * 100
      + 1 / 2⌋).toNat ≤ 100
    rw [Int.toNat_le]
    calc ⌊(sumRatings (a :: l) / (((a :: l).length : Nat) : ℚ) - 1) / 4 * 100 + 1 / 2⌋
        ≤ ⌊(201 : ℚ) / 2⌋ := Int.floor_le_floor (by linarith)
      _ = 100 := by norm_num

/-- C3: whatever the review set, when the external text-generation
collaborator fails, times out, or returns malformed output, `getInsights`
(a total function — it never throws) still returns a result whose
sentiment score and recommendation percentage are valid percentages,
whose popular tags are the locally computed frequency table, whose text
fields (summary, insights, strengths, improvements) are empty, and whose
`insights_unavailable` marker is set — while a successful outcome leaves
the marker unset, so the failure condition is distinguishable by the
caller. -/
theorem c3_insights_degrade_gracefully (rs : List Review)
    (outcome : SummarizeOutcome)
    (hvalid : ∀ r ∈ rs, r.overall_rating ≤ 5)
    (hfail : ∀ res, outcome ≠ SummarizeOutcome.ok res) :
    (getInsights rs outcome).sentiment_score ≤ 100
    ∧ (getInsights rs outcome).recommendation_percentage ≤ 100
    ∧ (getInsights rs outcome).popular_tags = tagFrequency rs
    ∧ (getInsights rs outcome).summary = ""
    ∧ (getInsights rs outcome).insights = []
    ∧ (getInsights rs outcome).key_strengths = []
    ∧ (getInsights rs outcome).areas_for_improvement = []
    ∧ (getInsights rs outcome).insights_unavailable = true
    ∧ (∀ res, (getInsights rs (SummarizeOutcome.ok res)).insights_unavailable
        = false) := by
  cases outcome with
  | ok res => exact absurd rfl (hfail res)
  | timeout =>
      exact ⟨sentimentScore_le_100 rs hvalid, recommendationPercentage_le_100 rs,
        rfl, rfl, rfl, rfl, rfl, rfl, fun _ => rfl⟩
  | serviceError =>
      exact ⟨sentimentScore_le_100 rs hvalid, recommendationPercentage_le_100 rs,
        rfl, rfl, rfl, rfl, rfl, rfl, fun _ => rfl⟩
  | malformed =>
      exact ⟨sentimentScore_le_100 rs hvalid, recommendationPercentage_le_100 rs,
        rfl, rfl, rfl, rfl, rfl, rfl, fun _ => rfl⟩

/-- Witness for C3 at one concrete review and a timed-out collaborator. -/
theorem c3_insights_degrade_witness :
    (getInsights [wr1] SummarizeOutcome.timeout).sentiment_score ≤ 100
    ∧ (getInsights [wr1] SummarizeOutcome.timeout).recommendation_percentage ≤ 100
    ∧ (getInsights [wr1] SummarizeOutcome.timeout).popular_tags = tagFrequency [wr1]
    ∧ (getInsights [wr1] SummarizeOutcome.timeout).summary = ""
    ∧ (getInsights [wr1] SummarizeOutcome.timeout).insights = []
    ∧ (getInsights [wr1] SummarizeOutcome.timeout).key_strengths = []
    ∧ (getInsights [wr1] SummarizeOutcome.timeout).areas_for_improvement = []
    ∧ (getInsights [wr1] SummarizeOutcome.timeout).insights_unavailable = true
    ∧ (∀ res, (getInsights [wr1] (SummarizeOutcome.ok res)).insights_unavailable
        = false) :=
  c3_insights_degrade_gracefully [wr1] SummarizeOutcome.timeout
    (by
      intro r hr
      rcases List.mem_cons.mp hr with h | h
      · subst h
        norm_num [wr1, mkReview]
      · exact absurd h (List.not_mem_nil r))
    (fun res h => by cases h)

/-- One form transition preserves the text-length bounds. -/
theorem applyFormEvent_preserves_bounds (st : ReviewFormState) (e : FormEvent)
    (h : st.shortReview.length ≤ 160 ∧ st.fullReview.length ≤ 500) :
    (applyFormEvent st e).shortReview.length ≤ 160
    ∧ (applyFormEvent st e).fullReview.length ≤ 500 := by
  cases e <;>
    simp only [applyFormEvent, initialFormState, List.length_take,
      List.length_nil] <;>
    omega

/-- Folding form events from a bounds-respecting state stays
bounds-respecting. -/
theorem foldl_formEvents_bounds : ∀ (es : List FormEvent) (st : ReviewFormState),
    st.shortReview.length ≤ 160 ∧ st.fullReview.length ≤ 500 →
    (es.foldl applyFormEvent st).shortReview.length ≤ 160
    ∧ (es.foldl applyFormEvent st).fullReview.length ≤ 500
  | [], _, h => h
  | e :: rest, st, h =>
      foldl_formEvents_bounds rest (applyFormEvent st e)
        (applyFormEvent_preserves_bounds st e h)

/-- Every reachable form state respects the text-length bounds. -/
theorem runForm_bounds (es : List FormEvent) :
    (runForm es).shortReview.length ≤ 160
    ∧ (runForm es).fullReview.length ≤ 500 :=
  foldl_formEvents_bounds es initialFormState (by simp [initialFormState])

/-- C8: every review submitted through the review form has a short text
of at most 160 characters and a long text of at most 500 characters —
the `maxLength` caps on the two text fields enforce the bounds on every
reachable form state, hence on every payload the submission path
produces. -/
theorem c8_submitted_review_text_bounds (es : List FormEvent)
    (selectedVariant : Option Nat) (p : ReviewPayload)
    (h : submitReview selectedVariant (runForm es) = some p) :
    p.short_review.length ≤ 160 ∧ p.full_review.length ≤ 500 := by
  have hinv := runForm_bounds es
  cases selectedVariant with
  | none =>
    simp only [submitReview] at h
    cases h
  | some v =>
    simp only [submitReview] at h
    by_cases h0 : (runForm es).reviewRating = 0
    · rw [if_pos h0] at h
      cases h
    · rw [if_neg h0] at h
      obtain rfl := (Option.some.injEq .. |>.mp h).symm
      exact hinv

/-- Witness for C8: typing a 2-character summary and submitting with
rating 5 yields a payload within both bounds. -/
theorem c8_submitted_review_text_bounds_witness :
    (ReviewPayload.mk 1 5 [] [] ['h', 'i'] []).short_review.length ≤ 160
    ∧ (ReviewPayload.mk 1 5 [] [] ['h', 'i'] []).full_review.length ≤ 500 :=
  c8_submitted_review_text_bounds
    [FormEvent.setRating 5, FormEvent.typeShort ['h', 'i']] (some 1)
    (ReviewPayload.mk 1 5 [] [] ['h', 'i'] []) rfl

/-- Storage stays empty across events that acquire no token. -/
theorem foldl_authEvents_none : ∀ es : List AuthEvent,
    (∀ e ∈ es, acquiresToken e = false) →
    es.foldl applyAuthEvent none = none
  | [], _ => rfl
  | e :: rest, h => by
    have h1 : applyAuthEvent none e = none := by
      cases e with
      | login tok => exact absurd (h _ (List.mem_cons_self _ _)) (by simp [acquiresToken])
      | register tok => exact absurd (h _ (List.mem_cons_self _ _)) (by simp [acquiresToken])
      | logout => rfl
      | resp401 => rfl
      | respOk => rfl
    rw [List.foldl_cons, h1]
    exact foldl_authEvents_none rest (fun x hx => h x (List.mem_cons_of_mem e hx))

/-- C9: the token lifecycle — a login stores the fresh token; while a
token is stored every outgoing request carries it as a Bearer header and
with no token stored no request carries one; a logout and a
401-equivalent response both clear the storage; and after a clearing
event, as long as no new login/register occurs, no subsequent request
carries any token (in particular not the old one). -/
theorem c9_auth_token_lifecycle (pre suf : List AuthEvent) (tok : String)
    (e : AuthEvent)
    (hclear : e = AuthEvent.logout ∨ e = AuthEvent.resp401)
    (hnoacq : ∀ x ∈ suf, acquiresToken x = false) :
    applyAuthEvent (runAuth pre) (AuthEvent.login tok) = some tok
    ∧ requestAuthHeader (some tok) = some ("Bearer " ++ tok)
    ∧ requestAuthHeader none = none
    ∧ applyAuthEvent (runAuth pre) AuthEvent.logout = none
    ∧ applyAuthEvent (runAuth pre) AuthEvent.resp401 = none
    ∧ requestAuthHeader (runAuth (pre ++ e :: suf)) = none := by
  refine ⟨rfl, rfl, rfl, rfl, rfl, ?_⟩
  have h1 : runAuth (pre ++ e :: suf)
      = suf.foldl applyAuthEvent (applyAuthEvent (runAuth pre) e) := by
    unfold runAuth
    rw [List.foldl_append, List.foldl_cons]
  have h2 : applyAuthEvent (runAuth pre) e = none := by
    rcases hclear with h | h <;> rw [h] <;> rfl
  rw [h1, h2, foldl_authEvents_none suf hnoacq]
  rfl

/-- Witness for C9: log in, log out, then receive an ordinary response —
the following request carries no token. -/
theorem c9_auth_token_lifecycle_witness :
    applyAuthEvent (runAuth [AuthEvent.login "t0"]) (AuthEvent.login "t1") = some "t1"
    ∧ requestAuthHeader (some "t1") = some ("Bearer " ++ "t1")
    ∧ requestAuthHeader none = none
    ∧ applyAuthEvent (runAuth [AuthEvent.login "t0"]) AuthEvent.logout = none
    ∧ applyAuthEvent (runAuth [AuthEvent.login "t0"]) AuthEvent.resp401 = none
    ∧ requestAuthHeader
        (runAuth ([AuthEvent.login "t0"] ++ AuthEvent.logout :: [AuthEvent.respOk]))
        = none :=
  c9_auth_token_lifecycle [AuthEvent.login "t0"] [AuthEvent.respOk] "t1"
    AuthEvent.logout (Or.inl rfl) (by decide)

end FeedbackVault
